import Mathlib

/-!
Verification of the interaction core of src/app/static/game.js (the numbers
puzzle drag/drop UI). The file gives a shallow embedding of the membership
model (which item element is a child of which slot element or of the bank
container), of the placement operations the event handlers perform, of the
ghost click suppression window, of the tap versus drag classification of the
touch pathway, and of the geometric nearest slot selection, and proves or
refutes the frozen claims about them.

Modelling conventions, justified against the source:
* An item element always has exactly one DOM parent, so the membership state
  is a total function from items to locations. Slot single occupancy is NOT
  structural and is proved as an invariant.
* Purely visual effects (CSS classes such as dragging, slot-highlight and
  placed, clone styling, visibility) are outside the modelled state; the
  model keeps exactly the state the placement logic reads back: item
  locations, the check button enablement, the attempts counter, the ghost
  click suppression deadline and whether a pointer drag is active.
* Math.hypot comparisons are modelled by comparing squared Euclidean
  distances over the rationals: for nonnegative reals, hypot d < hypot e
  holds iff d^2 + .. < e^2 + .., and bestDist <= 120 iff bestDist^2 <= 14400,
  so the selection logic is unchanged.
* The asynchronous snap animation commit (the cleanup closure) is modelled
  synchronously at the point the handler fires, per the single threaded
  event model of section 5 of the spec.
-/

namespace MyNumbers

/-- Location of an item element: a child of the bank container, or a child of
one of the nS slot elements (game.js lines 811-817, 1130, 1201). -/
inductive Loc (nS : Nat) where
  | bank : Loc nS
  | inSlot (k : Fin nS) : Loc nS
  deriving DecidableEq

/-- The state the placement logic of game.js reads and writes: the location
of every item, the checkBtn enablement, the attempts counter, the
suppressClickUntil deadline (line 520) and whether pointerState is non null
(line 523). nS slots and nI items are fixed per puzzle. -/
structure GameState (nS nI : Nat) where
  loc : Fin nI → Loc nS
  checkEnabled : Bool
  attempts : Nat
  suppressClickUntil : Nat
  pointerActive : Bool

/-- SNAP_THRESHOLD (game.js line 513): radius in logical units around a slot
center within which a drop snaps. -/
def SNAP_THRESHOLD : ℚ := 120

/-- CLICK_SUPPRESS_MS (game.js line 518): how long after a touch gesture
click type events are suppressed. -/
def CLICK_SUPPRESS_MS : Nat := 800

/-- True when the location is inside some slot (a DOM query for
".slot .bank-item" matches the element). -/
def isInSlotB {nS : Nat} : Loc nS → Bool
  | .bank => false
  | .inSlot _ => true

/-- Whether slot k currently holds an item (slot.querySelector(".bank-item")
is non null). -/
def occupiedB {nS nI : Nat} (s : GameState nS nI) (k : Fin nS) : Bool :=
  decide (∃ i, s.loc i = Loc.inSlot k)

/-- Number of item elements matching ".slot .bank-item" (game.js line 961):
the count of items whose parent is a slot, as a function of the location map
(the DOM tree the query runs over). -/
def filledItemCount {nS nI : Nat} (l : Fin nI → Loc nS) : Nat :=
  (Finset.univ.filter (fun i => isInSlotB (l i) = true)).card

/-- canCheck (game.js lines 959-963): totalSlots > 0 and
filledSlots === totalSlots, read from the location map. -/
def canCheckOfLoc {nS nI : Nat} (l : Fin nI → Loc nS) : Bool :=
  decide (0 < nS) && decide (filledItemCount l = nS)

/-- canCheck applied to a state. -/
def canCheckB {nS nI : Nat} (s : GameState nS nI) : Bool :=
  canCheckOfLoc s.loc

/-- updateControls (game.js lines 965-972) with a puzzle loaded: recompute
the checkBtn enablement from canCheck. -/
def refreshControls {nS nI : Nat} (s : GameState nS nI) : GameState nS nI :=
  { s with checkEnabled := canCheckOfLoc s.loc }

/-- Evict every occupant of slot k to the bank. In the source this is
"const existing = slot.querySelector(..); if (existing) bank.appendChild(existing)"
(lines 711-713, 813-815, 1136-1138); querySelector returns the single
occupant because single occupancy is invariant (proved below), so evicting
all occupants agrees with the source on every reachable state. -/
def evictFromSlot {nS nI : Nat} (k : Fin nS) (loc : Fin nI → Loc nS) :
    Fin nI → Loc nS :=
  fun j => if loc j = Loc.inSlot k then Loc.bank else loc j

/-- The primitive "move Item to Slot k" (spec section 4.5; the commit body of
the snap cleanup, game.js lines 812-817 plus 824): evict any occupant of k to
the bank, reparent item i into k, refresh the controls. -/
def placeInSlot {nS nI : Nat} (i : Fin nI) (k : Fin nS) (s : GameState nS nI) :
    GameState nS nI :=
  refreshControls { s with loc := Function.update (evictFromSlot k s.loc) i (Loc.inSlot k) }

/-- The primitive "move Item to Bank" (bank.appendChild(item) followed by
updateControls, game.js lines 536-541, 610-611, 1130-1131). -/
def moveToBank {nS nI : Nat} (i : Fin nI) (s : GameState nS nI) :
    GameState nS nI :=
  refreshControls { s with loc := Function.update s.loc i Loc.bank }

/-- The cleanup closure of animatePointerCloneIntoSlot (game.js lines
1196-1208): reparent the origin element into the slot and refresh controls.
It does not evict: its caller pointerUpHandler evicted the target slot at
lines 1136-1138 before starting the animation. -/
def pointerCloneCleanup {nS nI : Nat} (i : Fin nI) (k : Fin nS)
    (s : GameState nS nI) : GameState nS nI :=
  refreshControls { s with loc := Function.update s.loc i (Loc.inSlot k) }

/-- animateSnapAndPlace (game.js lines 772-829) as a state operation: if the
element is already a child of the destination slot, return with no change
(line 774); otherwise the cleanup commit (lines 809-828) evicts any occupant
and reparents the element, modelled by placeInSlot. -/
def animateSnapAndPlaceOp {nS nI : Nat} (i : Fin nI) (k : Fin nS)
    (s : GameState nS nI) : GameState nS nI :=
  if s.loc i = Loc.inSlot k then s else placeInSlot i k s

/-- resetSlots (game.js lines 854-862): every item inside a slot is appended
back to the bank, the attempts counter is reset, and updateControls runs. -/
def resetSlots {nS nI : Nat} (s : GameState nS nI) : GameState nS nI :=
  refreshControls
    { s with
      loc := fun j => match s.loc j with
        | .inSlot _ => Loc.bank
        | .bank => Loc.bank,
      attempts := 0 }

/-- State right after a puzzle loads (renderTemplate and renderBank, lines
588-679): every item is in the bank and updateControls has run. -/
def initState (nS nI : Nat) : GameState nS nI :=
  refreshControls
    { loc := fun _ => Loc.bank, checkEnabled := false, attempts := 0,
      suppressClickUntil := 0, pointerActive := false }

/-- Walk a list of slot indices and return the first slot with no occupant;
the loop body of findNextEmptySlot (game.js lines 693-697). -/
def firstEmptyIn {nS nI : Nat} (s : GameState nS nI) :
    List (Fin nS) → Option (Fin nS)
  | [] => none
  | k :: rest => if occupiedB s k then firstEmptyIn s rest else some k

/-- findNextEmptySlot (game.js lines 693-697): the slots in document order
are the slots in index order, since renderTemplate appends them in the order
of the template placeholders. -/
def findNextEmptySlot {nS nI : Nat} (s : GameState nS nI) : Option (Fin nS) :=
  firstEmptyIn s (List.finRange nS)

/-- slot.querySelector(".bank-item"): an occupant of slot k. Under the single
occupancy invariant the occupant is unique, so taking the least item index
agrees with the DOM query on every reachable state. -/
def firstOccupant {nS nI : Nat} (s : GameState nS nI) (k : Fin nS) :
    Option (Fin nI) :=
  (List.finRange nI).find? (fun i => decide (s.loc i = Loc.inSlot k))

/-- suppressGhostClick (game.js lines 560-562) performed at time now:
suppressClickUntil := Date.now() + CLICK_SUPPRESS_MS. -/
def suppressGhostClickAt {nS nI : Nat} (now : Nat) (s : GameState nS nI) :
    GameState nS nI :=
  { s with suppressClickUntil := now + CLICK_SUPPRESS_MS }

/-- pointerDownHandler (game.js lines 978-1025): arms the suppression window
and makes pointerState non null. Membership is untouched (only the visual
clone is created and the original hidden). -/
def pointerDownOp {nS nI : Nat} (now : Nat) (s : GameState nS nI) :
    GameState nS nI :=
  { s with suppressClickUntil := now + CLICK_SUPPRESS_MS, pointerActive := true }

/-- pointerCancelHandler (game.js lines 1148-1155): arm the window, end the
pointer drag, updateControls; no placement occurs. -/
def pointerCancelOp {nS nI : Nat} (now : Nat) (s : GameState nS nI) :
    GameState nS nI :=
  refreshControls
    { s with suppressClickUntil := now + CLICK_SUPPRESS_MS, pointerActive := false }

/-- The state bookkeeping common to every pointerUpHandler branch (game.js
lines 1075 and the endPointerDrag calls): the suppression window is armed and
pointerState becomes null. -/
def gestureEndState {nS nI : Nat} (now : Nat) (s : GameState nS nI) :
    GameState nS nI :=
  { s with suppressClickUntil := now + CLICK_SUPPRESS_MS, pointerActive := false }

/-- Where a click type event lands: a bank item (the delegated bank handler,
game.js lines 545-555), inside a slot (the slot click handler, lines 605-613,
with onItem recording whether ev.target was inside the occupant item), or the
reset button (line 526). -/
inductive ClickTarget (nS nI : Nat) where
  | bankItem (i : Fin nI)
  | slotTap (k : Fin nS) (onItem : Bool)
  | resetBtn

/-- The click handlers of game.js as a dispatch on the click target, with the
event timestamp now. The bank handler (lines 545-555) and each slot handler
(lines 605-613) first test Date.now() < suppressClickUntil and return; the
reset handler (line 526, body at 854-862) has no such test. -/
def dispatchClick {nS nI : Nat} (t : ClickTarget nS nI) (now : Nat)
    (s : GameState nS nI) : GameState nS nI :=
  match t with
  | .bankItem i =>
      if now < s.suppressClickUntil then s
      else if s.pointerActive then s
      else
        match findNextEmptySlot s with
        | some k => animateSnapAndPlaceOp i k s
        | none => s
  | .slotTap k onItem =>
      if now < s.suppressClickUntil then s
      else
        match firstOccupant s k with
        | some j => if onItem then moveToBank j s else s
        | none => s
  | .resetBtn => resetSlots s

/-- Squared Euclidean distance between two points. Math.hypot comparisons in
the source are monotone in the squared distance, so the selection below is
unchanged by squaring. -/
def dist2 (p q : ℚ × ℚ) : ℚ := (p.1 - q.1) ^ 2 + (p.2 - q.2) ^ 2

/-- A getBoundingClientRect result in logical units. -/
structure Rect where
  left : ℚ
  top : ℚ
  width : ℚ
  height : ℚ
  deriving DecidableEq

/-- r.right of a client rect. -/
def Rect.right (r : Rect) : ℚ := r.left + r.width

/-- r.bottom of a client rect. -/
def Rect.bottom (r : Rect) : ℚ := r.top + r.height

/-- Center of a client rect: (r.left + r.width/2, r.top + r.height/2) as in
game.js lines 756-757. -/
def Rect.center (r : Rect) : ℚ × ℚ := (r.left + r.width / 2, r.top + r.height / 2)

/-- The containment test of game.js lines 729-734: dropX >= r.left and
dropX <= r.right and dropY >= r.top and dropY <= r.bottom. -/
def Rect.containsPt (r : Rect) (x y : ℚ) : Bool :=
  decide (r.left ≤ x) && decide (x ≤ r.right) &&
    decide (r.top ≤ y) && decide (y ≤ r.bottom)

/-- A slot as the native template drop handler sees it: its client rect and
whether it currently holds an item. -/
structure SlotGeo where
  rect : Rect
  occupied : Bool
  deriving DecidableEq

/-- Center of a slot. -/
def SlotGeo.centerPt (sg : SlotGeo) : ℚ × ℚ := sg.rect.center

/-- One iteration of the nearest candidate loop of game.js lines 752-763
(and 1110-1123, 1044-1067): a candidate with squared distance strictly below
the best so far replaces it; best starts null with bestDist Infinity, so the
first candidate always replaces an empty accumulator. -/
def nearestStep {α : Type} (cen : α → ℚ × ℚ) (x y : ℚ)
    (acc : Option (α × ℚ)) (a : α) : Option (α × ℚ) :=
  match acc with
  | none => some (a, dist2 (cen a) (x, y))
  | some (b, bd) =>
      if dist2 (cen a) (x, y) < bd then some (a, dist2 (cen a) (x, y))
      else some (b, bd)

/-- The nearest candidate loop folded over the candidate list. -/
def nearestAux {α : Type} (cen : α → ℚ × ℚ) (x y : ℚ) :
    List α → Option (α × ℚ) → Option (α × ℚ)
  | [], acc => acc
  | a :: rest, acc => nearestAux cen x y rest (nearestStep cen x y acc a)

/-- Result of a drop: place into a slot, or return the item to the bank. -/
inductive DropOutcome (α : Type) where
  | placeIn (target : α)
  | toBank
  deriving DecidableEq

/-- handleDropOnTemplate (game.js lines 717-770), target resolution: if a
slot contains the drop point use it; otherwise the nearest empty slot within
SNAP_THRESHOLD of the drop point; otherwise the bank. -/
def handleDropOnTemplateRes (slots : List SlotGeo) (x y : ℚ) :
    DropOutcome SlotGeo :=
  match slots.find? (fun sg => sg.rect.containsPt x y) with
  | some sg => .placeIn sg
  | none =>
      if (slots.filter (fun sg => !sg.occupied)).isEmpty then .toBank
      else
        match nearestAux SlotGeo.centerPt x y
            (slots.filter (fun sg => !sg.occupied)) none with
        | some (best, bestDist) =>
            if bestDist ≤ SNAP_THRESHOLD ^ 2 then .placeIn best else .toBank
        | none => .toBank

/-- The containment scan of pointerUpHandler (game.js lines 1098-1106) over
the slot rects in index order. -/
def firstContaining {nS : Nat} (rects : Fin nS → Rect) (x y : ℚ) :
    Option (Fin nS) :=
  (List.finRange nS).find? (fun k => (rects k).containsPt x y)

/-- pointerUpHandler (game.js lines 1070-1146). The suppression window is
armed and the drag ends (gestureEndState). A tap (moved false, lines
1083-1092) places the item into findNextEmptySlot, or the bank if none,
ignoring the release position. A drag resolves the containing slot, else the
nearest empty slot within threshold (lines 1094-1125); a resolved target is
committed through eviction (lines 1136-1138) plus the pointer clone cleanup
reparent (line 1201), together placeInSlot; no target returns the item to
the bank (lines 1127-1133). -/
def pointerUpOp {nS nI : Nat} (rects : Fin nS → Rect) (x y : ℚ) (moved : Bool)
    (i : Fin nI) (now : Nat) (s : GameState nS nI) : GameState nS nI :=
  if moved then
    match firstContaining rects x y with
    | some k => placeInSlot i k (gestureEndState now s)
    | none =>
        match nearestAux (fun k => (rects k).center) x y
            ((List.finRange nS).filter (fun k => !occupiedB s k)) none with
        | some (best, bestDist) =>
            if bestDist ≤ SNAP_THRESHOLD ^ 2 then
              placeInSlot i best (gestureEndState now s)
            else moveToBank i (gestureEndState now s)
        | none => moveToBank i (gestureEndState now s)
  else
    match findNextEmptySlot s with
    | some k => animateSnapAndPlaceOp i k (gestureEndState now s)
    | none => moveToBank i (gestureEndState now s)

/-- The states the interaction core can reach from a fresh puzzle: each
constructor is one event handler of game.js acting on the membership state.
The native drop handlers (handleDropOnSlot lines 704-715, handleDropOnTemplate
lines 717-770, bank ondrop lines 536-542, finalizeDragEndCheck lines 681-691)
mutate membership only through the moveToBank and placeInSlot primitives with
some arguments, so their composites add no states beyond the place and toBank
steps below. -/
inductive Reachable {nS nI : Nat} : GameState nS nI → Prop where
  | init : Reachable (initState nS nI)
  | toBank (i : Fin nI) {s : GameState nS nI} :
      Reachable s → Reachable (moveToBank i s)
  | place (i : Fin nI) (k : Fin nS) {s : GameState nS nI} :
      Reachable s → Reachable (placeInSlot i k s)
  | snap (i : Fin nI) (k : Fin nS) {s : GameState nS nI} :
      Reachable s → Reachable (animateSnapAndPlaceOp i k s)
  | reset {s : GameState nS nI} : Reachable s → Reachable (resetSlots s)
  | click (t : ClickTarget nS nI) (now : Nat) {s : GameState nS nI} :
      Reachable s → Reachable (dispatchClick t now s)
  | ptrDown (now : Nat) {s : GameState nS nI} :
      Reachable s → Reachable (pointerDownOp now s)
  | ptrCancel (now : Nat) {s : GameState nS nI} :
      Reachable s → Reachable (pointerCancelOp now s)
  | ptrUp (rects : Fin nS → Rect) (x y : ℚ) (moved : Bool) (i : Fin nI)
      (now : Nat) {s : GameState nS nI} :
      Reachable s → Reachable (pointerUpOp rects x y moved i now s)

/-- Single occupancy: no two items are children of the same slot. -/
def SlotInj {nS nI : Nat} (s : GameState nS nI) : Prop :=
  ∀ (k : Fin nS) (i j : Fin nI),
    s.loc i = Loc.inSlot k → s.loc j = Loc.inSlot k → i = j

/-- The checkBtn enablement field is the recomputed canCheck value. -/
def CtrlOk {nS nI : Nat} (s : GameState nS nI) : Prop :=
  s.checkEnabled = canCheckOfLoc s.loc

/-- TAP_MOVE_PX (game.js line 517): how far the finger may move from the
start and still count as a tap. -/
def TAP_MOVE_PX : ℤ := 10

/-- Squared Euclidean distance on integer pixel coordinates;
Math.hypot(dx0, dy0) > TAP_MOVE_PX holds iff dx0^2 + dy0^2 > TAP_MOVE_PX^2. -/
def idist2 (p q : ℤ × ℤ) : ℤ := (p.1 - q.1) ^ 2 + (p.2 - q.2) ^ 2

/-- One touch gesture: the pointer down position, the pointer move sample
positions in order, and the total duration in milliseconds (pointer down to
pointer up). -/
structure TouchGesture where
  start : ℤ × ℤ
  moves : List (ℤ × ℤ)
  durationMs : Nat

/-- The moved flag after processing all pointermove events (game.js lines
1037-1041): it is set, and never cleared, once a sample is strictly more than
TAP_MOVE_PX from the start position. -/
def movedFlagAfter (start : ℤ × ℤ) (moves : List (ℤ × ℤ)) : Bool :=
  moves.foldl (fun moved pt => moved || decide (TAP_MOVE_PX ^ 2 < idist2 start pt)) false

/-- pointerUpHandler line 1083 reads the classification: a tap iff the moved
flag never fired. The gesture duration is not consulted anywhere. -/
def classifiedTap (g : TouchGesture) : Bool :=
  !(movedFlagAfter g.start g.moves)

/-- The path segments of a gesture: consecutive pairs along start :: moves. -/
def segEnds (g : TouchGesture) : List ((ℤ × ℤ) × (ℤ × ℤ)) :=
  (g.start :: g.moves).zip g.moves

/-- Modelled from the spec wording of C4: the cumulative displacement (the
sum of the Euclidean lengths of the path segments) is at most the bound.
Each segment length is a nonnegative rational whose square is the squared
segment length, so the statement is exact without square roots. -/
def specCumulativeDisplacementLE (g : TouchGesture) (bound : ℚ) : Prop :=
  ∃ lens : List ℚ,
    lens.length = (segEnds g).length ∧
    (∀ pr ∈ lens.zip (segEnds g),
        0 ≤ pr.1 ∧ pr.1 ^ 2 = (idist2 pr.2.1 pr.2.2 : ℚ)) ∧
    lens.sum ≤ bound

/-- Modelled from the spec wording of C4: a tap iff cumulative displacement
stays at or below the pixel threshold and elapsed time stays below 600 ms. -/
def specTapCondition (g : TouchGesture) : Prop :=
  specCumulativeDisplacementLE g (TAP_MOVE_PX : ℚ) ∧ g.durationMs < 600

/-- A gesture that moves once 3 px from the start and lasts 700 ms. -/
def gestureCexC4 : TouchGesture :=
  { start := (0, 0), moves := [(0, 3)], durationMs := 700 }

/-- The reason field of a check response (game.js lines 917-949). -/
inductive Verdict where
  | correct
  | wrongValue
  | invalidExpression
  | other
  deriving DecidableEq

/-- What the check response handler displays. -/
inductive CheckAction where
  | showInvalid
  | reveal
  | attemptsLeft (n : Nat)
  | showCorrect
  | showOther
  deriving DecidableEq

/-- One check response against the attempts counter (game.js lines 916-950):
invalid_expression leaves attempts unchanged; wrong_value increments it and
triggers the reveal fetch when the new value reaches 3, otherwise an attempts
remaining message; correct resets attempts to 0. -/
def checkStep (attempts : Nat) : Verdict → Nat × CheckAction
  | .invalidExpression => (attempts, .showInvalid)
  | .wrongValue =>
      if 3 ≤ attempts + 1 then (attempts + 1, .reveal)
      else (attempts + 1, .attemptsLeft (3 - (attempts + 1)))
  | .correct => (0, .showCorrect)
  | .other => (attempts, .showOther)

/-- Fold checkStep over a sequence of verdicts, collecting the displayed
actions; newPuzzle starts the counter at 0 (game.js line 565). -/
def runChecks (attempts : Nat) : List Verdict → Nat × List CheckAction
  | [] => (attempts, [])
  | v :: rest =>
      let step := checkStep attempts v
      let restRun := runChecks step.1 rest
      (restRun.1, step.2 :: restRun.2)

/-- Number of wrong_value verdicts after the most recent correct verdict
(the whole sequence when none is correct). -/
def wrongsSinceLastCorrect (vs : List Verdict) : Nat :=
  (vs.reverse.takeWhile (fun v => !decide (v = Verdict.correct))).countP
    (fun v => decide (v = Verdict.wrongValue))

/-- The verdict sequence wrong, invalid, wrong, wrong. -/
def cexVerdictsC5 : List Verdict :=
  [.wrongValue, .invalidExpression, .wrongValue, .wrongValue]

/-- A template token is a slot placeholder when it starts with an opening
brace and ends with a closing brace (game.js line 871). The source tests
startsWith and endsWith against the one character brace strings, which is
exactly a test on the first and last character. -/
def isSlotToken (tok : String) : Bool :=
  (tok.data.head? == some '\x7b') && (tok.data.getLast? == some '\x7d')

/-- tok.slice(1, -1): the slot index between the braces (game.js line 872),
the token without its first and last character. -/
def slotTokenIndex (tok : String) : String :=
  String.mk ((tok.data.drop 1).dropLast)

/-- The querySelector for a slot with the given data-slot-index (game.js line
873): none when the slot is structurally missing, some occupant otherwise,
where the occupant value is none for an empty slot. -/
def slotByIndex (slots : List (String × Option String)) (idx : String) :
    Option (Option String) :=
  (slots.find? (fun pr => pr.1 == idx)).map Prod.snd

/-- The token loop of buildExpressionFromTemplate (game.js lines 870-883):
for a placeholder token, fail with "Slot idx missing" when no such slot
exists and "Slot idx is empty" when it has no occupant, else push the
occupant value; for a literal token push the token. The loop returns on the
first failure. -/
def buildParts (slots : List (String × Option String)) :
    List String → Except String (List String)
  | [] => .ok []
  | tok :: rest =>
      if isSlotToken tok then
        match slotByIndex slots (slotTokenIndex tok) with
        | none => .error ("Slot " ++ slotTokenIndex tok ++ " missing")
        | some none => .error ("Slot " ++ slotTokenIndex tok ++ " is empty")
        | some (some v) => (buildParts slots rest).map (fun parts => v :: parts)
      else (buildParts slots rest).map (fun parts => tok :: parts)

/-- buildExpressionFromTemplate (game.js lines 864-886): the joined parts. -/
def buildExpressionFromTemplate (tokens : List String)
    (slots : List (String × Option String)) : Except String String :=
  (buildParts slots tokens).map String.join

/-- canCheck (game.js lines 959-963) over the same slot list: the slot count
is positive and every slot has an occupant. -/
def canCheckSlots (slots : List (String × Option String)) : Bool :=
  decide (0 < slots.length) &&
    decide (slots.countP (fun pr => pr.2.isSome) = slots.length)

/-- What checkPuzzle (game.js lines 888-914) does before any network request:
a build error or a failed canCheck is surfaced as a local message and the
function returns; otherwise the expression is sent to the checker. -/
inductive CheckAttemptOutcome where
  | localError (msg : String)
  | sendCheck (expression : String)
  deriving DecidableEq

/-- The synchronous prefix of checkPuzzle (game.js lines 888-914) with a
puzzle loaded: build the expression, surface built.error locally, then
re-validate with canCheck, and only then issue the request. -/
def checkPuzzlePre (tokens : List String)
    (slots : List (String × Option String)) : CheckAttemptOutcome :=
  match buildExpressionFromTemplate tokens slots with
  | .error e => .localError e
  | .ok expr =>
      if canCheckSlots slots then .sendCheck expr
      else .localError "Please fill all slots before checking."

/-- Concrete states and inputs used by the closed witness and counterexample
theorems below. -/
def stateC3cex : GameState 1 1 :=
  { loc := fun _ => Loc.inSlot 0, checkEnabled := true, attempts := 2,
    suppressClickUntil := 1000, pointerActive := false }

/-- A 40 by 40 rect at the origin. -/
def rectC7 : Rect := { left := 0, top := 0, width := 40, height := 40 }

/-- Two slots, slot 0 occupied by item 0, item 1 in the bank. -/
def stateC7 : GameState 2 2 :=
  { loc := fun i => if i = 0 then Loc.inSlot 0 else Loc.bank,
    checkEnabled := false, attempts := 0, suppressClickUntil := 0,
    pointerActive := true }

/-- An empty slot near the drop point used by the C6 witness. -/
def slotC6a : SlotGeo :=
  { rect := { left := 0, top := 0, width := 40, height := 40 }, occupied := false }

/-- A far away empty slot used by the C6 witness. -/
def slotC6b : SlotGeo :=
  { rect := { left := 300, top := 0, width := 40, height := 40 }, occupied := false }

/-- The slot list of the C6 witness. -/
def slotsC6 : List SlotGeo := [slotC6a, slotC6b]

/-- Total variant of slotOfLoc used by the counting argument: the slot a
location points into, or the default for the bank. -/
def slotOfLocD {nS : Nat} (dflt : Fin nS) : Loc nS → Fin nS
  | .bank => dflt
  | .inSlot k => k

/-- Item 0 sits in the single slot. -/
def stateC10 : GameState 1 1 :=
  { loc := fun _ => Loc.inSlot 0, checkEnabled := true, attempts := 0,
    suppressClickUntil := 0, pointerActive := false }

/-- Template tokens with two placeholders. -/
def tokensC9 : List String := ["\x7b0\x7d", "+", "\x7b1\x7d"]

/-- Slot 0 holds 7, slot 1 is empty. -/
def slotsC9 : List (String × Option String) := [("0", some "7"), ("1", none)]

lemma refreshControls_loc {nS nI : Nat} (s : GameState nS nI) :
    (refreshControls s).loc = s.loc := rfl

lemma placeInSlot_loc {nS nI : Nat} (i : Fin nI) (k : Fin nS)
    (s : GameState nS nI) :
    (placeInSlot i k s).loc = Function.update (evictFromSlot k s.loc) i (Loc.inSlot k) := rfl

/-- After placing i into k, no other item is left in slot k. -/
lemma placeInSlot_loc_ne {nS nI : Nat} (i j : Fin nI) (k : Fin nS)
    (s : GameState nS nI) (hne : j ≠ i) :
    (placeInSlot i k s).loc j = if s.loc j = Loc.inSlot k then Loc.bank else s.loc j := by
  rw [placeInSlot_loc, Function.update_noteq hne]
  rfl

lemma placeInSlot_loc_self {nS nI : Nat} (i : Fin nI) (k : Fin nS)
    (s : GameState nS nI) : (placeInSlot i k s).loc i = Loc.inSlot k := by
  rw [placeInSlot_loc, Function.update_same]

/-- Placing the same item into the same slot twice produces the same
location map as placing it once. -/
lemma place_loc_idem {nS nI : Nat} (i : Fin nI) (k : Fin nS)
    (l : Fin nI → Loc nS) :
    Function.update
        (evictFromSlot k (Function.update (evictFromSlot k l) i (Loc.inSlot k)))
        i (Loc.inSlot k)
      = Function.update (evictFromSlot k l) i (Loc.inSlot k) := by
  funext j
  by_cases hj : j = i
  · subst hj
    simp
  · simp only [Function.update_noteq hj]
    unfold evictFromSlot
    simp only [Function.update_noteq hj]
    by_cases h2 : l j = Loc.inSlot k <;> simp [h2]

/-- C1: for every snap animation, running the commit cleanup a second time
(the transition completion signal and the fallback timer both fire, game.js
lines 809-828 and 1196-1211) restores exactly the state of the first commit:
the item ends reparented into the destination slot once, and the second
invocation changes no state. -/
theorem snap_cleanup_commit_idempotent {nS nI : Nat} (i : Fin nI) (k : Fin nS)
    (s : GameState nS nI) :
    placeInSlot i k (placeInSlot i k s) = placeInSlot i k s ∧
    pointerCloneCleanup i k (pointerCloneCleanup i k s) = pointerCloneCleanup i k s := by
  obtain ⟨l, c, a, u, p⟩ := s
  constructor
  · simp only [placeInSlot, refreshControls]
    rw [place_loc_idem i k l]
  · simp only [pointerCloneCleanup, refreshControls]
    rw [Function.update_idem]

/-- C10: placing an item into the slot it already occupies is a no-op: the
guard at game.js line 774 returns before the animation starts, before any
eviction and before any state change. -/
theorem place_into_current_slot_noop {nS nI : Nat} (i : Fin nI) (k : Fin nS)
    (s : GameState nS nI) (h : s.loc i = Loc.inSlot k) :
    animateSnapAndPlaceOp i k s = s := by
  unfold animateSnapAndPlaceOp
  rw [if_pos h]

/-- C10 witness: placing the one item into the slot it already occupies
leaves the concrete state untouched. -/
theorem place_into_current_slot_witness :
    animateSnapAndPlaceOp (0 : Fin 1) (0 : Fin 1) stateC10 = stateC10 :=
  place_into_current_slot_noop (0 : Fin 1) (0 : Fin 1) stateC10 (by decide)

lemma moveToBank_loc_self {nS nI : Nat} (i : Fin nI) (s : GameState nS nI) :
    (moveToBank i s).loc i = Loc.bank := by
  show Function.update s.loc i Loc.bank i = Loc.bank
  rw [Function.update_same]

lemma moveToBank_loc_ne {nS nI : Nat} (i j : Fin nI) (s : GameState nS nI)
    (hne : j ≠ i) : (moveToBank i s).loc j = s.loc j := by
  show Function.update s.loc i Loc.bank j = s.loc j
  rw [Function.update_noteq hne]

lemma resetSlots_loc {nS nI : Nat} (s : GameState nS nI) (j : Fin nI) :
    (resetSlots s).loc j = Loc.bank := by
  show (match s.loc j with
    | .inSlot _ => Loc.bank
    | .bank => Loc.bank) = Loc.bank
  cases s.loc j <;> rfl

lemma slotInj_place {nS nI : Nat} (i : Fin nI) (k : Fin nS) {s : GameState nS nI}
    (h : SlotInj s) : SlotInj (placeInSlot i k s) := by
  intro k0 a b ha hb
  by_cases hai : a = i
  · subst hai
    by_cases hbi : b = a
    · exact hbi.symm
    · exfalso
      rw [placeInSlot_loc_self] at ha
      injection ha with hk
      rw [placeInSlot_loc_ne a b k s hbi] at hb
      subst hk
      by_cases h2 : s.loc b = Loc.inSlot k
      · rw [if_pos h2] at hb
        exact Loc.noConfusion hb
      · rw [if_neg h2] at hb
        exact h2 hb
  · by_cases hbi : b = i
    · subst hbi
      exfalso
      rw [placeInSlot_loc_self] at hb
      injection hb with hk
      rw [placeInSlot_loc_ne b a k s hai] at ha
      subst hk
      by_cases h2 : s.loc a = Loc.inSlot k
      · rw [if_pos h2] at ha
        exact Loc.noConfusion ha
      · rw [if_neg h2] at ha
        exact h2 ha
    · rw [placeInSlot_loc_ne i a k s hai] at ha
      rw [placeInSlot_loc_ne i b k s hbi] at hb
      by_cases h2 : s.loc a = Loc.inSlot k
      · rw [if_pos h2] at ha
        exact absurd ha (fun hh => Loc.noConfusion hh)
      · rw [if_neg h2] at ha
        by_cases h3 : s.loc b = Loc.inSlot k
        · rw [if_pos h3] at hb
          exact absurd hb (fun hh => Loc.noConfusion hh)
        · rw [if_neg h3] at hb
          exact h k0 a b ha hb

lemma slotInj_toBank {nS nI : Nat} (i : Fin nI) {s : GameState nS nI}
    (h : SlotInj s) : SlotInj (moveToBank i s) := by
  intro k0 a b ha hb
  by_cases hai : a = i
  · subst hai
    rw [moveToBank_loc_self] at ha
    exact Loc.noConfusion ha
  · by_cases hbi : b = i
    · subst hbi
      rw [moveToBank_loc_self] at hb
      exact Loc.noConfusion hb
    · rw [moveToBank_loc_ne i a s hai] at ha
      rw [moveToBank_loc_ne i b s hbi] at hb
      exact h k0 a b ha hb

lemma slotInj_reset {nS nI : Nat} (s : GameState nS nI) :
    SlotInj (resetSlots s) := by
  intro k0 a b ha _
  rw [resetSlots_loc] at ha
  exact Loc.noConfusion ha

lemma slotInj_snap {nS nI : Nat} (i : Fin nI) (k : Fin nS) {s : GameState nS nI}
    (h : SlotInj s) : SlotInj (animateSnapAndPlaceOp i k s) := by
  unfold animateSnapAndPlaceOp
  split
  · exact h
  · exact slotInj_place i k h

lemma slotInj_init {nS nI : Nat} : SlotInj (initState nS nI) := by
  intro k0 a b ha _
  exact Loc.noConfusion ha

lemma slotInj_dispatch {nS nI : Nat} (t : ClickTarget nS nI) (now : Nat)
    {s : GameState nS nI} (h : SlotInj s) : SlotInj (dispatchClick t now s) := by
  cases t with
  | bankItem i =>
    dsimp only [dispatchClick]
    split
    · exact h
    · split
      · exact h
      · split
        · exact slotInj_snap _ _ h
        · exact h
  | slotTap k onItem =>
    dsimp only [dispatchClick]
    split
    · exact h
    · split
      · split
        · exact slotInj_toBank _ h
        · exact h
      · exact h
  | resetBtn => exact slotInj_reset s

lemma slotInj_ptrUp {nS nI : Nat} (rects : Fin nS → Rect) (x y : ℚ)
    (moved : Bool) (i : Fin nI) (now : Nat) {s : GameState nS nI}
    (h : SlotInj s) : SlotInj (pointerUpOp rects x y moved i now s) := by
  have h0 : SlotInj (gestureEndState now s) := h
  unfold pointerUpOp
  split
  · split
    · exact slotInj_place _ _ h0
    · split
      · split
        · exact slotInj_place _ _ h0
        · exact slotInj_toBank _ h0
      · exact slotInj_toBank _ h0
  · split
    · exact slotInj_snap _ _ h0
    · exact slotInj_toBank _ h0

lemma ctrlOk_snap {nS nI : Nat} (i : Fin nI) (k : Fin nS) {s : GameState nS nI}
    (h : CtrlOk s) : CtrlOk (animateSnapAndPlaceOp i k s) := by
  unfold animateSnapAndPlaceOp
  split
  · exact h
  · exact rfl

lemma ctrlOk_dispatch {nS nI : Nat} (t : ClickTarget nS nI) (now : Nat)
    {s : GameState nS nI} (h : CtrlOk s) : CtrlOk (dispatchClick t now s) := by
  cases t with
  | bankItem i =>
    dsimp only [dispatchClick]
    split
    · exact h
    · split
      · exact h
      · split
        · exact ctrlOk_snap _ _ h
        · exact h
  | slotTap k onItem =>
    dsimp only [dispatchClick]
    split
    · exact h
    · split
      · split
        · exact rfl
        · exact h
      · exact h
  | resetBtn => exact rfl

lemma ctrlOk_ptrUp {nS nI : Nat} (rects : Fin nS → Rect) (x y : ℚ)
    (moved : Bool) (i : Fin nI) (now : Nat) {s : GameState nS nI}
    (h : CtrlOk s) : CtrlOk (pointerUpOp rects x y moved i now s) := by
  have h0 : CtrlOk (gestureEndState now s) := h
  unfold pointerUpOp
  split
  · split
    · exact rfl
    · split
      · split
        · exact rfl
        · exact rfl
      · exact rfl
  · split
    · exact ctrlOk_snap _ _ h0
    · exact rfl

/-- Every reachable state satisfies slot single occupancy and carries the
recomputed checkBtn enablement. -/
lemma reachable_inv {nS nI : Nat} {s : GameState nS nI} (h : Reachable s) :
    SlotInj s ∧ CtrlOk s := by
  induction h with
  | init => exact ⟨slotInj_init, rfl⟩
  | toBank i _ ih => exact ⟨slotInj_toBank i ih.1, rfl⟩
  | place i k _ ih => exact ⟨slotInj_place i k ih.1, rfl⟩
  | snap i k _ ih => exact ⟨slotInj_snap i k ih.1, ctrlOk_snap i k ih.2⟩
  | reset _ ih => exact ⟨slotInj_reset _, rfl⟩
  | click t now _ ih => exact ⟨slotInj_dispatch t now ih.1, ctrlOk_dispatch t now ih.2⟩
  | ptrDown now _ ih => exact ⟨ih.1, ih.2⟩
  | ptrCancel now _ ih => exact ⟨ih.1, rfl⟩
  | ptrUp rects x y moved i now _ ih =>
      exact ⟨slotInj_ptrUp rects x y moved i now ih.1,
        ctrlOk_ptrUp rects x y moved i now ih.2⟩

lemma isInSlotB_iff {nS : Nat} (l : Loc nS) :
    isInSlotB l = true ↔ ∃ k, l = Loc.inSlot k := by
  cases l with
  | bank =>
    constructor
    · intro hb
      exact absurd hb (by simp [isInSlotB])
    · rintro ⟨k, hk⟩
      exact Loc.noConfusion hk
  | inSlot k =>
    constructor
    · intro _
      exact ⟨k, rfl⟩
    · intro _
      rfl

/-- With single occupancy, the number of items sitting in slots equals nS
exactly when every slot is occupied. -/
lemma filled_iff_all_occupied {nS nI : Nat} {s : GameState nS nI}
    (hinj : SlotInj s) (hpos : 0 < nS) :
    filledItemCount s.loc = nS ↔ ∀ k : Fin nS, ∃ i, s.loc i = Loc.inSlot k := by
  have hmemA : ∀ i : Fin nI,
      (i ∈ Finset.univ.filter (fun i : Fin nI => isInSlotB (s.loc i) = true)) ↔
        ∃ k, s.loc i = Loc.inSlot k := by
    intro i
    rw [Finset.mem_filter]
    constructor
    · rintro ⟨_, hb⟩
      exact (isInSlotB_iff (s.loc i)).mp hb
    · intro hx
      exact ⟨Finset.mem_univ i, (isInSlotB_iff (s.loc i)).mpr hx⟩
  have hinjOn : Set.InjOn (fun i => slotOfLocD ⟨0, hpos⟩ (s.loc i))
      ↑(Finset.univ.filter (fun i : Fin nI => isInSlotB (s.loc i) = true)) := by
    intro a ha b hb hfe
    obtain ⟨ka, hka⟩ := (hmemA a).mp (Finset.mem_coe.mp ha)
    obtain ⟨kb, hkb⟩ := (hmemA b).mp (Finset.mem_coe.mp hb)
    have hfe2 : ka = kb := by
      have h3 : slotOfLocD ⟨0, hpos⟩ (s.loc a) = slotOfLocD ⟨0, hpos⟩ (s.loc b) := hfe
      rw [hka, hkb] at h3
      simpa [slotOfLocD] using h3
    exact hinj ka a b hka (by rw [hkb, hfe2])
  constructor
  · intro hcard k
    have hc : ((Finset.univ.filter
        (fun i : Fin nI => isInSlotB (s.loc i) = true)).image
          (fun i => slotOfLocD ⟨0, hpos⟩ (s.loc i))).card = Fintype.card (Fin nS) := by
      rw [Finset.card_image_of_injOn hinjOn, Fintype.card_fin]
      exact hcard
    have himg := (Finset.card_eq_iff_eq_univ _).mp hc
    have hk : k ∈ (Finset.univ.filter
        (fun i : Fin nI => isInSlotB (s.loc i) = true)).image
          (fun i => slotOfLocD ⟨0, hpos⟩ (s.loc i)) := by
      rw [himg]
      exact Finset.mem_univ k
    obtain ⟨i, hiA, hfi⟩ := Finset.mem_image.mp hk
    obtain ⟨ki, hki⟩ := (hmemA i).mp hiA
    refine ⟨i, ?_⟩
    rw [hki] at hfi
    simp only [slotOfLocD] at hfi
    rw [hki, hfi]
  · intro hall
    have himg : (Finset.univ.filter
        (fun i : Fin nI => isInSlotB (s.loc i) = true)).image
          (fun i => slotOfLocD ⟨0, hpos⟩ (s.loc i)) = Finset.univ := by
      apply Finset.eq_univ_iff_forall.mpr
      intro k
      obtain ⟨i, hik⟩ := hall k
      apply Finset.mem_image.mpr
      refine ⟨i, (hmemA i).mpr ⟨k, hik⟩, ?_⟩
      rw [hik]
      rfl
    have hcc := Finset.card_image_of_injOn hinjOn
    rw [himg, Finset.card_univ, Fintype.card_fin] at hcc
    exact hcc.symm

/-- canCheck is true exactly when there are slots and all are occupied. -/
lemma canCheck_iff {nS nI : Nat} {s : GameState nS nI} (hinj : SlotInj s) :
    canCheckOfLoc s.loc = true ↔
      (0 < nS ∧ ∀ k : Fin nS, ∃ i, s.loc i = Loc.inSlot k) := by
  unfold canCheckOfLoc
  rw [Bool.and_eq_true, decide_eq_true_eq, decide_eq_true_eq]
  constructor
  · rintro ⟨hpos, hfilled⟩
    exact ⟨hpos, (filled_iff_all_occupied hinj hpos).mp hfilled⟩
  · rintro ⟨hpos, hall⟩
    exact ⟨hpos, (filled_iff_all_occupied hinj hpos).mpr hall⟩

/-- C2: in every reachable state each item is in exactly one location (its
location is the bank or exactly one slot), no slot holds two items, and
placing into an occupied slot sends the occupant to the bank within the same
placement operation. -/
theorem membership_exclusive_single_occupancy {nS nI : Nat}
    {s : GameState nS nI} (h : Reachable s) :
    (∀ i : Fin nI, s.loc i = Loc.bank ∨ ∃ k, s.loc i = Loc.inSlot k) ∧
    (∀ (k : Fin nS) (i j : Fin nI),
        s.loc i = Loc.inSlot k → s.loc j = Loc.inSlot k → i = j) ∧
    (∀ (i j : Fin nI) (k : Fin nS), s.loc j = Loc.inSlot k → j ≠ i →
        (placeInSlot i k s).loc j = Loc.bank) := by
  refine ⟨?_, (reachable_inv h).1, ?_⟩
  · intro i
    cases hl : s.loc i with
    | bank => exact Or.inl rfl
    | inSlot k => exact Or.inr ⟨k, rfl⟩
  · intro i j k hj hne
    rw [placeInSlot_loc_ne i j k s hne, if_pos hj]

/-- C2 witness: after placing item 0 in the single slot from the fresh
puzzle state, placing item 1 there evicts item 0 to the bank. -/
theorem membership_single_occupancy_witness :
    (placeInSlot (1 : Fin 2) (0 : Fin 1)
        (placeInSlot (0 : Fin 2) (0 : Fin 1) (initState 1 2))).loc (0 : Fin 2) =
      Loc.bank :=
  (membership_exclusive_single_occupancy
      (Reachable.place (0 : Fin 2) (0 : Fin 1) Reachable.init)).2.2
    (1 : Fin 2) (0 : Fin 2) (0 : Fin 1) (by decide) (by decide)

/-- C8: in every reachable state the check action enablement, recomputed by
updateControls after every membership mutation, is on exactly when the slot
count is nonzero and every slot is occupied. -/
theorem check_enabled_iff_all_slots_filled {nS nI : Nat} {s : GameState nS nI}
    (h : Reachable s) :
    s.checkEnabled = true ↔
      (0 < nS ∧ ∀ k : Fin nS, ∃ i, s.loc i = Loc.inSlot k) := by
  obtain ⟨hinj, hctrl⟩ := reachable_inv h
  have hctrl2 : s.checkEnabled = canCheckOfLoc s.loc := hctrl
  rw [hctrl2]
  exact canCheck_iff hinj

/-- C8 witness: with one slot and one item, the reachable state after the
placement has the check action enabled, matching full occupancy. -/
theorem check_enabled_witness :
    (placeInSlot (0 : Fin 1) (0 : Fin 1) (initState 1 1)).checkEnabled = true ↔
      (0 < 1 ∧ ∀ k : Fin 1, ∃ i : Fin 1,
        (placeInSlot (0 : Fin 1) (0 : Fin 1) (initState 1 1)).loc i =
          Loc.inSlot k) :=
  check_enabled_iff_all_slots_filled
    (Reachable.place (0 : Fin 1) (0 : Fin 1) Reachable.init)

/-- C3 counterexample: the claim says a click timestamped before the armed
suppression deadline is discarded globally with no further propagation to any
handler. In the code only the bank and slot click handlers test the deadline:
a reset button click at time 400, before the deadline 1000, still runs
resetSlots and moves the slotted item to the bank, changing state. -/
theorem ghost_click_not_global_counterexample :
    400 < stateC3cex.suppressClickUntil ∧
    (dispatchClick ClickTarget.resetBtn 400 stateC3cex).loc 0 ≠
      stateC3cex.loc 0 := by
  constructor
  · decide
  · decide

/-- C3 amended: a click timestamped strictly before the armed deadline is
ignored by the bank tap to place handler and by each slot tap to remove
handler, each returning with no state change; the suppression is only these
per handler checks (a reset click runs regardless of the deadline, and no
global capture phase discard exists); a click timestamped at deadline plus
one is processed normally by the bank handler. -/
theorem ghost_click_suppression_per_handler {nS nI : Nat} :
    (∀ (s : GameState nS nI) (now : Nat) (i : Fin nI),
        now < s.suppressClickUntil → dispatchClick (.bankItem i) now s = s) ∧
    (∀ (s : GameState nS nI) (now : Nat) (k : Fin nS) (b : Bool),
        now < s.suppressClickUntil → dispatchClick (.slotTap k b) now s = s) ∧
    (∀ (s : GameState nS nI) (now : Nat),
        dispatchClick (ClickTarget.resetBtn) now s = resetSlots s) ∧
    (∀ (s : GameState nS nI) (i : Fin nI), s.pointerActive = false →
        dispatchClick (.bankItem i) (s.suppressClickUntil + 1) s =
          (match findNextEmptySlot s with
            | some k => animateSnapAndPlaceOp i k s
            | none => s)) := by
  refine ⟨?_, ?_, ?_, ?_⟩
  · intro s now i h
    dsimp only [dispatchClick]
    rw [if_pos h]
  · intro s now k b h
    dsimp only [dispatchClick]
    rw [if_pos h]
  · intro s now
    rfl
  · intro s i hp
    dsimp only [dispatchClick]
    rw [if_neg (by omega), if_neg (by rw [hp]; exact Bool.false_ne_true)]

lemma movedFlag_false_iff (start : ℤ × ℤ) :
    ∀ (moves : List (ℤ × ℤ)) (b : Bool),
      (moves.foldl
          (fun moved pt => moved || decide (TAP_MOVE_PX ^ 2 < idist2 start pt)) b
        = false) ↔
      (b = false ∧ ∀ pt ∈ moves, idist2 start pt ≤ TAP_MOVE_PX ^ 2) := by
  intro moves
  induction moves with
  | nil =>
    intro b
    simp
  | cons a rest ih =>
    intro b
    rw [List.foldl_cons, ih]
    constructor
    · rintro ⟨h1, h2⟩
      rw [Bool.or_eq_false_iff] at h1
      obtain ⟨hb, hd⟩ := h1
      refine ⟨hb, ?_⟩
      intro pt hpt
      rcases List.mem_cons.mp hpt with he | hr
      · subst he
        exact not_lt.mp (of_decide_eq_false hd)
      · exact h2 pt hr
    · rintro ⟨hb, hall⟩
      refine ⟨?_, fun pt hpt => hall pt (List.mem_cons_of_mem a hpt)⟩
      rw [hb, Bool.false_or]
      exact decide_eq_false (not_lt.mpr (hall a (List.mem_cons_self a rest)))

/-- C4 amended: a gesture is classified a tap exactly when every pointer
move sample stays within TAP_MOVE_PX (Euclidean distance from the start
position, compared squared); the elapsed time of the gesture is not
consulted, and once a sample exceeds the threshold the gesture is
permanently a drag (the moved flag is never cleared). -/
theorem tap_classification_distance_only (start : ℤ × ℤ)
    (moves : List (ℤ × ℤ)) (dur : Nat) :
    classifiedTap { start := start, moves := moves, durationMs := dur } = true ↔
      ∀ pt ∈ moves, idist2 start pt ≤ TAP_MOVE_PX ^ 2 := by
  show (!(movedFlagAfter start moves)) = true ↔ _
  rw [Bool.not_eq_true']
  unfold movedFlagAfter
  rw [movedFlag_false_iff start moves false]
  simp

/-- C4 counterexample: the claim classifies a tap exactly when cumulative
displacement stays within the threshold and elapsed time stays below 600 ms.
The gesture that moves once 3 px and lasts 700 ms violates the time bound,
so the claim calls it a drag, yet the code classifies it a tap: the source
has no time component in its classification. -/
theorem tap_classification_time_counterexample :
    ¬ (classifiedTap gestureCexC4 = true ↔ specTapCondition gestureCexC4) := by
  intro hiff
  have h1 : classifiedTap gestureCexC4 = true := by decide
  have h2 := hiff.mp h1
  exact absurd h2.2 (by decide)

lemma checkStep_fst (a : Nat) (v : Verdict) :
    (checkStep a v).1 =
      (match v with
        | .correct => 0
        | .wrongValue => a + 1
        | .invalidExpression => a
        | .other => a) := by
  cases v with
  | correct => rfl
  | wrongValue =>
    dsimp only [checkStep]
    split <;> rfl
  | invalidExpression => rfl
  | other => rfl

lemma runChecks_append (a : Nat) (vs : List Verdict) (v : Verdict) :
    (runChecks a (vs ++ [v])).1 = (checkStep (runChecks a vs).1 v).1 := by
  induction vs generalizing a with
  | nil => rfl
  | cons w rest ih =>
    show (runChecks (checkStep a w).1 (rest ++ [v])).1 = _
    rw [ih]
    rfl

lemma wslc_append (vs : List Verdict) (v : Verdict) :
    wrongsSinceLastCorrect (vs ++ [v]) =
      (match v with
        | .correct => 0
        | .wrongValue => wrongsSinceLastCorrect vs + 1
        | .invalidExpression => wrongsSinceLastCorrect vs
        | .other => wrongsSinceLastCorrect vs) := by
  unfold wrongsSinceLastCorrect
  rw [List.reverse_append]
  cases v <;> simp [List.takeWhile_cons, List.countP_cons]

lemma attempts_eq_wrongs_since (vs : List Verdict) :
    (runChecks 0 vs).1 = wrongsSinceLastCorrect vs := by
  induction vs using List.reverseRecOn with
  | nil => rfl
  | append_singleton rest v ih =>
    rw [runChecks_append, checkStep_fst, wslc_append, ih]

lemma reveal_iff_step (a : Nat) (v : Verdict) :
    (checkStep a v).2 = CheckAction.reveal ↔
      (v = Verdict.wrongValue ∧ 3 ≤ a + 1) := by
  cases v with
  | correct => simp [checkStep]
  | wrongValue =>
    dsimp only [checkStep]
    by_cases h3 : 3 ≤ a + 1
    · rw [if_pos h3]
      simp [h3]
    · rw [if_neg h3]
      simp [h3]
  | invalidExpression => simp [checkStep]
  | other => simp [checkStep]

/-- C5 amended: starting from a fresh attempts counter, the counter always
equals the number of wrong_value verdicts since the most recent correct
verdict, and a check response triggers the reveal fetch exactly when it is a
wrong_value that brings that number to three or more; invalid_expression
verdicts neither increment nor reset the counter, so the three wrong_value
verdicts need not be consecutive. -/
theorem reveal_after_three_wrongs_since_correct :
    (∀ vs : List Verdict, (runChecks 0 vs).1 = wrongsSinceLastCorrect vs) ∧
    (∀ (vs : List Verdict) (v : Verdict),
        (checkStep (runChecks 0 vs).1 v).2 = CheckAction.reveal ↔
          (v = Verdict.wrongValue ∧
            3 ≤ wrongsSinceLastCorrect (vs ++ [v]))) := by
  refine ⟨attempts_eq_wrongs_since, ?_⟩
  intro vs v
  rw [reveal_iff_step, attempts_eq_wrongs_since]
  constructor
  · rintro ⟨hv, h3⟩
    subst hv
    refine ⟨rfl, ?_⟩
    rw [wslc_append]
    exact h3
  · rintro ⟨hv, h3⟩
    subst hv
    rw [wslc_append] at h3
    exact ⟨rfl, h3⟩

/-- C5 counterexample: on the verdict sequence wrong, invalid, wrong, wrong
the fourth response triggers the reveal (attempts reaches 3) although the
three verdicts ending there are not three consecutive wrong_value verdicts:
the second is invalid_expression, which does not reset the counter. -/
theorem reveal_nonconsecutive_counterexample :
    (runChecks 0 cexVerdictsC5).2.get? 3 = some CheckAction.reveal ∧
    ¬ (cexVerdictsC5.get? 1 = some Verdict.wrongValue ∧
       cexVerdictsC5.get? 2 = some Verdict.wrongValue ∧
       cexVerdictsC5.get? 3 = some Verdict.wrongValue) := by
  constructor
  · decide
  · decide

lemma nearestStep_ne_none {α : Type} (cen : α → ℚ × ℚ) (x y : ℚ)
    (acc : Option (α × ℚ)) (a : α) : nearestStep cen x y acc a ≠ none := by
  cases acc with
  | none => exact fun h => Option.noConfusion h
  | some pr =>
    obtain ⟨b, bd⟩ := pr
    dsimp only [nearestStep]
    split
    · exact fun h => Option.noConfusion h
    · exact fun h => Option.noConfusion h

lemma nearestAux_ne_none {α : Type} (cen : α → ℚ × ℚ) (x y : ℚ) :
    ∀ (l : List α) (acc), nearestAux cen x y l acc = none →
      l = [] ∧ acc = none := by
  intro l
  induction l with
  | nil =>
    intro acc h
    exact ⟨rfl, h⟩
  | cons a rest ih =>
    intro acc h
    exfalso
    obtain ⟨_, h2⟩ := ih (nearestStep cen x y acc a) h
    exact nearestStep_ne_none cen x y acc a h2

lemma nearestAux_sound {α : Type} (cen : α → ℚ × ℚ) (x y : ℚ) :
    ∀ (l : List α) (acc) (b : α) (bd : ℚ),
      nearestAux cen x y l acc = some (b, bd) →
      ((b ∈ l ∧ bd = dist2 (cen b) (x, y)) ∨ acc = some (b, bd)) := by
  intro l
  induction l with
  | nil =>
    intro acc b bd h
    exact Or.inr h
  | cons a rest ih =>
    intro acc b bd h
    rcases ih (nearestStep cen x y acc a) b bd h with ⟨hm, hd⟩ | hacc
    · exact Or.inl ⟨List.mem_cons_of_mem a hm, hd⟩
    · cases acc with
      | none =>
        dsimp only [nearestStep] at hacc
        injection hacc with h1
        injection h1 with hb hd
        subst hb
        exact Or.inl ⟨List.mem_cons_self a rest, hd.symm⟩
      | some pr =>
        obtain ⟨c, cd⟩ := pr
        dsimp only [nearestStep] at hacc
        by_cases hlt : dist2 (cen a) (x, y) < cd
        · rw [if_pos hlt] at hacc
          injection hacc with h1
          injection h1 with hb hd
          subst hb
          exact Or.inl ⟨List.mem_cons_self a rest, hd.symm⟩
        · rw [if_neg hlt] at hacc
          exact Or.inr hacc

lemma nearestAux_min {α : Type} (cen : α → ℚ × ℚ) (x y : ℚ) :
    ∀ (l : List α) (acc) (b : α) (bd : ℚ),
      nearestAux cen x y l acc = some (b, bd) →
      ((∀ a ∈ l, bd ≤ dist2 (cen a) (x, y)) ∧
        (∀ (c : α) (cd : ℚ), acc = some (c, cd) → bd ≤ cd)) := by
  intro l
  induction l with
  | nil =>
    intro acc b bd h
    have h0 : acc = some (b, bd) := h
    refine ⟨fun a ha => absurd ha (List.not_mem_nil a), ?_⟩
    intro c cd hacc
    have h2 := h0.symm.trans hacc
    injection h2 with h3
    injection h3 with _ hbd
    rw [hbd]
  | cons a rest ih =>
    intro acc b bd h
    have hstep := ih (nearestStep cen x y acc a) b bd h
    constructor
    · intro a2 ha2
      rcases List.mem_cons.mp ha2 with he | hr
      · subst he
        cases acc with
        | none =>
          exact hstep.2 a2 (dist2 (cen a2) (x, y)) rfl
        | some pr =>
          obtain ⟨c, cd⟩ := pr
          by_cases hlt : dist2 (cen a2) (x, y) < cd
          · exact hstep.2 a2 (dist2 (cen a2) (x, y))
              (by dsimp only [nearestStep]; rw [if_pos hlt])
          · have h1 : bd ≤ cd := hstep.2 c cd
              (by dsimp only [nearestStep]; rw [if_neg hlt])
            exact le_trans h1 (not_lt.mp hlt)
      · exact hstep.1 a2 hr
    · intro c cd hacc
      subst hacc
      by_cases hlt : dist2 (cen a) (x, y) < cd
      · have h1 : bd ≤ dist2 (cen a) (x, y) := hstep.2 a (dist2 (cen a) (x, y))
          (by dsimp only [nearestStep]; rw [if_pos hlt])
        exact le_trans h1 (le_of_lt hlt)
      · exact hstep.2 c cd (by dsimp only [nearestStep]; rw [if_neg hlt])

/-- C6: for a drop on the open template area outside every slot rect, a
chosen slot is an empty slot minimizing the Euclidean distance (compared
squared) from the drop point to the slot center and lies within
SNAP_THRESHOLD; when the item instead returns to the bank, every empty slot
is strictly beyond the threshold. -/
theorem template_drop_nearest_empty_slot (slots : List SlotGeo) (x y : ℚ)
    (hout : ∀ sg ∈ slots, sg.rect.containsPt x y = false) :
    (∀ b, handleDropOnTemplateRes slots x y = DropOutcome.placeIn b →
        (b ∈ slots ∧ b.occupied = false ∧
          dist2 b.centerPt (x, y) ≤ SNAP_THRESHOLD ^ 2 ∧
          ∀ sg ∈ slots, sg.occupied = false →
            dist2 b.centerPt (x, y) ≤ dist2 sg.centerPt (x, y))) ∧
    (handleDropOnTemplateRes slots x y = DropOutcome.toBank →
        ∀ sg ∈ slots, sg.occupied = false →
          SNAP_THRESHOLD ^ 2 < dist2 sg.centerPt (x, y)) := by
  have hfind : slots.find? (fun sg => sg.rect.containsPt x y) = none := by
    rw [List.find?_eq_none]
    intro sg hm
    rw [hout sg hm]
    exact Bool.false_ne_true
  have hmf : ∀ sg, sg ∈ slots.filter (fun t => !t.occupied) ↔
      (sg ∈ slots ∧ sg.occupied = false) := by
    intro sg
    rw [List.mem_filter, Bool.not_eq_true']
  have hred : handleDropOnTemplateRes slots x y =
      (if (slots.filter (fun sg => !sg.occupied)).isEmpty then DropOutcome.toBank
        else
          match nearestAux SlotGeo.centerPt x y
              (slots.filter (fun sg => !sg.occupied)) none with
          | some (best, bestDist) =>
              if bestDist ≤ SNAP_THRESHOLD ^ 2 then DropOutcome.placeIn best
              else DropOutcome.toBank
          | none => DropOutcome.toBank) := by
    unfold handleDropOnTemplateRes
    rw [hfind]
  rw [hred]
  by_cases hemp : (slots.filter (fun sg => !sg.occupied)).isEmpty
  · rw [if_pos hemp]
    constructor
    · intro b hb
      exact absurd hb (fun hh => DropOutcome.noConfusion hh)
    · intro _ sg hm hocc
      exfalso
      have hin : sg ∈ slots.filter (fun t => !t.occupied) := (hmf sg).mpr ⟨hm, hocc⟩
      rw [List.isEmpty_iff] at hemp
      rw [hemp] at hin
      exact absurd hin (List.not_mem_nil sg)
  · rw [if_neg hemp]
    cases hna : nearestAux SlotGeo.centerPt x y
        (slots.filter (fun sg => !sg.occupied)) none with
    | none =>
      exfalso
      obtain ⟨hl, _⟩ := nearestAux_ne_none SlotGeo.centerPt x y _ none hna
      exact hemp (by rw [hl]; rfl)
    | some pr =>
      obtain ⟨best, bestDist⟩ := pr
      dsimp only
      have hsound := nearestAux_sound SlotGeo.centerPt x y _ none best bestDist hna
      have hmin := nearestAux_min SlotGeo.centerPt x y _ none best bestDist hna
      rcases hsound with ⟨hmem, hd⟩ | habs
      · obtain ⟨hbs, hbo⟩ := (hmf best).mp hmem
        by_cases hth : bestDist ≤ SNAP_THRESHOLD ^ 2
        · rw [if_pos hth]
          constructor
          · intro b hb
            injection hb with hbb
            subst hbb
            refine ⟨hbs, hbo, ?_, ?_⟩
            · rw [← hd]
              exact hth
            · intro sg hm hocc
              rw [← hd]
              exact hmin.1 sg ((hmf sg).mpr ⟨hm, hocc⟩)
          · intro hb
            exact absurd hb (fun hh => DropOutcome.noConfusion hh)
        · rw [if_neg hth]
          constructor
          · intro b hb
            exact absurd hb (fun hh => DropOutcome.noConfusion hh)
          · intro _ sg hm hocc
            have h1 := hmin.1 sg ((hmf sg).mpr ⟨hm, hocc⟩)
            have h2 : SNAP_THRESHOLD ^ 2 < bestDist := not_le.mp hth
            exact lt_of_lt_of_le h2 h1
      · exact absurd habs (fun hh => Option.noConfusion hh)

lemma containsC6 : ∀ sg ∈ slotsC6, sg.rect.containsPt 50 20 = false := by
  intro sg hm
  rcases List.mem_cons.mp hm with he | hm2
  · subst he
    simp only [slotC6a, Rect.containsPt, Rect.right, Rect.bottom,
      Bool.and_eq_false_iff, decide_eq_false_iff_not]
    norm_num
  · rcases List.mem_cons.mp hm2 with he | hm3
    · subst he
      simp only [slotC6b, Rect.containsPt, Rect.right, Rect.bottom,
        Bool.and_eq_false_iff, decide_eq_false_iff_not]
      norm_num
    · exact absurd hm3 (List.not_mem_nil sg)

lemma dropC6_eval :
    handleDropOnTemplateRes slotsC6 50 20 = DropOutcome.placeIn slotC6a := by
  have hc1 : dist2 (SlotGeo.centerPt slotC6a) (50, 20) = 900 := by
    show ((0 : ℚ) + 40 / 2 - 50) ^ 2 + ((0 : ℚ) + 40 / 2 - 20) ^ 2 = 900
    norm_num
  have hc2 : dist2 (SlotGeo.centerPt slotC6b) (50, 20) = 72900 := by
    show ((300 : ℚ) + 40 / 2 - 50) ^ 2 + ((0 : ℚ) + 40 / 2 - 20) ^ 2 = 72900
    norm_num
  have ha := containsC6 slotC6a (List.mem_cons_self slotC6a [slotC6b])
  have hb := containsC6 slotC6b
    (List.mem_cons_of_mem slotC6a (List.mem_cons_self slotC6b []))
  have hfind : slotsC6.find? (fun sg => sg.rect.containsPt 50 20) = none := by
    simp only [slotsC6, List.find?, ha, hb]
  have hfilter : slotsC6.filter (fun sg => !sg.occupied) = [slotC6a, slotC6b] := by
    rfl
  have hstep1 : nearestStep SlotGeo.centerPt 50 20 none slotC6a =
      some (slotC6a, 900) := by
    show some (slotC6a, dist2 (SlotGeo.centerPt slotC6a) (50, 20)) =
      some (slotC6a, 900)
    rw [hc1]
  have hstep2 : nearestStep SlotGeo.centerPt 50 20 (some (slotC6a, 900)) slotC6b =
      some (slotC6a, 900) := by
    show (if dist2 (SlotGeo.centerPt slotC6b) (50, 20) < 900 then
        some (slotC6b, dist2 (SlotGeo.centerPt slotC6b) (50, 20))
      else some (slotC6a, 900)) = some (slotC6a, 900)
    rw [hc2]
    rw [if_neg (by norm_num)]
  have hnear : nearestAux SlotGeo.centerPt 50 20 [slotC6a, slotC6b] none =
      some (slotC6a, 900) := by
    show nearestAux SlotGeo.centerPt 50 20 [slotC6b]
      (nearestStep SlotGeo.centerPt 50 20 none slotC6a) = some (slotC6a, 900)
    rw [hstep1]
    show nearestStep SlotGeo.centerPt 50 20 (some (slotC6a, 900)) slotC6b =
      some (slotC6a, 900)
    rw [hstep2]
  unfold handleDropOnTemplateRes
  rw [hfind]
  show (if (slotsC6.filter (fun sg => !sg.occupied)).isEmpty then DropOutcome.toBank
    else
      match nearestAux SlotGeo.centerPt 50 20
          (slotsC6.filter (fun sg => !sg.occupied)) none with
      | some (best, bestDist) =>
          if bestDist ≤ SNAP_THRESHOLD ^ 2 then DropOutcome.placeIn best
          else DropOutcome.toBank
      | none => DropOutcome.toBank) = DropOutcome.placeIn slotC6a
  rw [hfilter]
  rw [if_neg (by decide)]
  rw [hnear]
  show (if (900 : ℚ) ≤ SNAP_THRESHOLD ^ 2 then DropOutcome.placeIn slotC6a
    else DropOutcome.toBank) = DropOutcome.placeIn slotC6a
  rw [if_pos (by norm_num [SNAP_THRESHOLD])]

/-- C6 witness: dropping at (50, 20), outside both slot rects, places into
the near empty slot at distance 30, which is within the 120 unit threshold
and closer than the far slot. -/
theorem template_drop_nearest_witness :
    slotC6a ∈ slotsC6 ∧ slotC6a.occupied = false ∧
    dist2 slotC6a.centerPt (50, 20) ≤ SNAP_THRESHOLD ^ 2 ∧
    (∀ sg ∈ slotsC6, sg.occupied = false →
        dist2 slotC6a.centerPt (50, 20) ≤ dist2 sg.centerPt (50, 20)) :=
  (template_drop_nearest_empty_slot slotsC6 50 20 containsC6).1 slotC6a dropC6_eval

lemma firstEmptyIn_some {nS nI : Nat} (s : GameState nS nI) :
    ∀ (l : List (Fin nS)) (k : Fin nS), firstEmptyIn s l = some k →
      occupiedB s k = false ∧ k ∈ l := by
  intro l
  induction l with
  | nil =>
    intro k h
    exact Option.noConfusion h
  | cons a rest ih =>
    intro k h
    unfold firstEmptyIn at h
    by_cases ha : occupiedB s a = true
    · rw [if_pos ha] at h
      obtain ⟨h1, h2⟩ := ih k h
      exact ⟨h1, List.mem_cons_of_mem a h2⟩
    · rw [if_neg ha] at h
      injection h with h
      subst h
      exact ⟨Bool.eq_false_iff.mpr ha, List.mem_cons_self a rest⟩

lemma firstEmptyIn_earlier {nS nI : Nat} (s : GameState nS nI) :
    ∀ (l : List (Fin nS)), l.Pairwise (· < ·) →
      ∀ (k : Fin nS), firstEmptyIn s l = some k →
        ∀ j ∈ l, j < k → occupiedB s j = true := by
  intro l
  induction l with
  | nil =>
    intro _ k _ j hj
    exact absurd hj (List.not_mem_nil j)
  | cons a rest ih =>
    intro hp k h j hj hlt
    have hpa := (List.pairwise_cons.mp hp).1
    have hpr := (List.pairwise_cons.mp hp).2
    unfold firstEmptyIn at h
    by_cases ha : occupiedB s a = true
    · rw [if_pos ha] at h
      rcases List.mem_cons.mp hj with he | hr
      · rw [he]
        exact ha
      · exact ih hpr k h j hr hlt
    · rw [if_neg ha] at h
      injection h with hk
      rcases List.mem_cons.mp hj with he | hr
      · exfalso
        rw [he, ← hk] at hlt
        exact lt_irrefl a hlt
      · exfalso
        rw [← hk] at hlt
        exact absurd hlt (not_lt.mpr (le_of_lt (hpa j hr)))

/-- C7: a gesture released while still classified a tap places the item into
the lowest index empty slot regardless of the release position (the tap
branch never reads the coordinates), and returns it to the bank when no slot
is empty. -/
theorem tap_release_lowest_empty_slot {nS nI : Nat} (rects : Fin nS → Rect)
    (x y : ℚ) (i : Fin nI) (now : Nat) (s : GameState nS nI) :
    (∀ x2 y2 : ℚ, pointerUpOp rects x2 y2 false i now s =
        pointerUpOp rects x y false i now s) ∧
    (∀ k : Fin nS, findNextEmptySlot s = some k →
        ((pointerUpOp rects x y false i now s).loc i = Loc.inSlot k ∧
          occupiedB s k = false ∧
          ∀ j : Fin nS, j < k → occupiedB s j = true)) ∧
    (findNextEmptySlot s = none →
        (pointerUpOp rects x y false i now s).loc i = Loc.bank) := by
  refine ⟨fun x2 y2 => rfl, ?_, ?_⟩
  · intro k hk
    have hocc := firstEmptyIn_some s (List.finRange nS) k hk
    have hbefore := firstEmptyIn_earlier s (List.finRange nS)
      (List.pairwise_lt_finRange nS) k hk
    refine ⟨?_, hocc.1, fun j hj => hbefore j (List.mem_finRange j) hj⟩
    show (match findNextEmptySlot s with
      | some k2 => animateSnapAndPlaceOp i k2 (gestureEndState now s)
      | none => moveToBank i (gestureEndState now s)).loc i = Loc.inSlot k
    rw [hk]
    have hne : (gestureEndState now s).loc i ≠ Loc.inSlot k := by
      intro hcontra
      have hocc2 : occupiedB s k = true := by
        unfold occupiedB
        rw [decide_eq_true_eq]
        exact ⟨i, hcontra⟩
      rw [hocc.1] at hocc2
      exact Bool.noConfusion hocc2
    show (animateSnapAndPlaceOp i k (gestureEndState now s)).loc i = Loc.inSlot k
    unfold animateSnapAndPlaceOp
    rw [if_neg hne]
    exact placeInSlot_loc_self i k (gestureEndState now s)
  · intro hk
    show (match findNextEmptySlot s with
      | some k2 => animateSnapAndPlaceOp i k2 (gestureEndState now s)
      | none => moveToBank i (gestureEndState now s)).loc i = Loc.bank
    rw [hk]
    exact moveToBank_loc_self i (gestureEndState now s)

/-- C7 witness: with slot 0 occupied and slot 1 empty, a tap on the bank item
(release position (0, 0)) places it into slot 1, the lowest index empty
slot. -/
theorem tap_release_witness :
    (pointerUpOp (fun _ => rectC7) 0 0 false (1 : Fin 2) 100 stateC7).loc
        (1 : Fin 2) = Loc.inSlot (1 : Fin 2) ∧
    occupiedB stateC7 (1 : Fin 2) = false ∧
    (∀ j : Fin 2, j < (1 : Fin 2) → occupiedB stateC7 j = true) :=
  (tap_release_lowest_empty_slot (fun _ => rectC7) 0 0 (1 : Fin 2) 100
      stateC7).2.1 (1 : Fin 2) (by decide)

lemma buildParts_error_of_bad (slots : List (String × Option String)) :
    ∀ (tokens : List String),
      (∃ tok ∈ tokens, isSlotToken tok = true ∧
          (slotByIndex slots (slotTokenIndex tok) = none ∨
            slotByIndex slots (slotTokenIndex tok) = some none)) →
      ∃ e, buildParts slots tokens = Except.error e := by
  intro tokens
  induction tokens with
  | nil =>
    rintro ⟨tok, hmem, _⟩
    exact absurd hmem (List.not_mem_nil tok)
  | cons t rest ih =>
    rintro ⟨tok, hmem, hhole, hbad⟩
    rcases List.mem_cons.mp hmem with he | hr
    · subst he
      unfold buildParts
      rw [if_pos hhole]
      rcases hbad with hb | hb
      · rw [hb]
        exact ⟨_, rfl⟩
      · rw [hb]
        exact ⟨_, rfl⟩
    · obtain ⟨e, he⟩ := ih ⟨tok, hr, hhole, hbad⟩
      unfold buildParts
      by_cases ht : isSlotToken t = true
      · rw [if_pos ht]
        cases hsl : slotByIndex slots (slotTokenIndex t) with
        | none => exact ⟨_, rfl⟩
        | some o =>
          cases o with
          | none => exact ⟨_, rfl⟩
          | some v =>
            rw [he]
            exact ⟨e, rfl⟩
      · rw [if_neg ht]
        rw [he]
        exact ⟨e, rfl⟩

/-- C9: a check attempt while some template slot is structurally missing or
empty, or while some slot has no occupant, produces a local validation
message and never reaches the request stage; no call to the expression
checker is issued. -/
theorem incomplete_check_rejected_locally (tokens : List String)
    (slots : List (String × Option String))
    (h : (∃ tok ∈ tokens, isSlotToken tok = true ∧
            (slotByIndex slots (slotTokenIndex tok) = none ∨
              slotByIndex slots (slotTokenIndex tok) = some none)) ∨
          (∃ pr ∈ slots, pr.2 = none)) :
    ∃ msg, checkPuzzlePre tokens slots = CheckAttemptOutcome.localError msg := by
  unfold checkPuzzlePre
  rcases h with h1 | h2
  · obtain ⟨e, he⟩ := buildParts_error_of_bad slots tokens h1
    unfold buildExpressionFromTemplate
    rw [he]
    exact ⟨e, rfl⟩
  · cases hb : buildExpressionFromTemplate tokens slots with
    | error e => exact ⟨e, rfl⟩
    | ok expr =>
      have hcount : ¬ (slots.countP (fun pr => pr.2.isSome) = slots.length) := by
        rw [List.countP_eq_length]
        intro hall
        obtain ⟨pr, hm, hn⟩ := h2
        have hs := hall pr hm
        rw [hn] at hs
        exact Bool.noConfusion hs
      have hcc : canCheckSlots slots = false := by
        unfold canCheckSlots
        rw [decide_eq_false hcount, Bool.and_false]
      rw [hcc]
      exact ⟨_, rfl⟩

/-- C9 witness: with the template referencing slots 0 and 1 and slot 1 empty,
the check attempt is rejected with a local message before any request. -/
theorem incomplete_check_witness :
    ∃ msg, checkPuzzlePre tokensC9 slotsC9 =
      CheckAttemptOutcome.localError msg :=
  incomplete_check_rejected_locally tokensC9 slotsC9
    (Or.inl ⟨"\x7b1\x7d",
      List.Mem.tail _ (List.Mem.tail _ (List.Mem.head _)),
      by decide, Or.inr (by decide)⟩)

end MyNumbers
